import Mathlib

/-!
Verification of the seek subsystem of a FLAC stream-access library
(source file: flac.go).

The development shallowly embeds the seek-related code of the library:

* `SeekPoint`, `SeekTable` mirror `meta.SeekPoint` / `meta.SeekTable`
  (the `uint64` fields become `Nat`).  The wrapping Go conversion
  `int64(x)` is modelled by `goInt64`; it is used where the wrap is
  observable within a claim's scope (the `sampleNum` comparison of
  `searchFromStart`, where embedded tables can carry placeholder points
  with `sampleNum = 2 ^ 64 - 1`).  The remaining conversions (offsets
  compared against a real byte offset, the returned achieved sample)
  are modelled as the plain coercion `(x : Int)`, which agrees with
  `goInt64` on the value ranges the corresponding claims quantify
  over.
* `Stream` carries the fields of `flac.Stream` that the seek code reads
  or writes, together with an explicit model of the underlying source:
  `srcIsSeeker` models whether `stream.r` implements `io.ReadSeeker`,
  `srcPos` is the source's byte cursor, `failPlan` gives the outcome of
  the successive `(io.Seeker).Seek` calls on the source (an absent entry
  means the call succeeds), and `frames` is the sequence of results that
  successive `stream.ParseNext` calls starting at `dataStart` produce
  (the end of the list is the graceful `io.EOF`).
* Go functions become Lean functions returning the result together with
  the updated `Stream`; a Go run-time panic (failed type assertion or a
  nil-pointer dereference) is the distinguished outcome `SeekRes.crash`.
-/

namespace Flac

/-- Model of `meta.SeekPoint`: sample number, byte offset relative to
`Stream.dataStart`, and number of samples in the frame. -/
structure SeekPoint where
  sampleNum : Nat
  offset : Nat
  nsamples : Nat
deriving Repr, DecidableEq

/-- Model of `meta.SeekTable`: the list of seek points. -/
structure SeekTable where
  points : List SeekPoint
deriving Repr, DecidableEq

/-- Result of one `stream.ParseNext()` call during the seek-table scan:
either a frame with its sample count (`f.BlockSize`) and the number of
source bytes it occupies, or a non-EOF decode failure.  The end of the
list models the graceful `io.EOF`. -/
inductive FrameResult where
  | frame (blockSize : Nat) (byteLen : Nat)
  | failure
deriving Repr, DecidableEq

/-- Errors returned by the modelled code: `noSeeker` is `ErrNoSeeker`,
`invalidSeek` is `ErrInvalidSeek`, `frameErr` is a pass-through frame
decode error, `seekErr` is a pass-through positioning error of the
underlying source. -/
inductive GoErr where
  | noSeeker
  | invalidSeek
  | frameErr
  | seekErr
deriving Repr, DecidableEq

/-- Outcome of `Stream.Seek`: a result value, an error, or a Go run-time
panic (`crash`). -/
inductive SeekRes where
  | ok (result : Int)
  | err (e : GoErr)
  | crash
deriving Repr, DecidableEq

/-- Model of `flac.Stream` restricted to the state the seek code uses,
together with the explicit source model described in the file header. -/
structure Stream where
  nsamples : Nat
  seekTable : Option SeekTable
  seekTableSize : Nat
  dataStart : Int
  srcIsSeeker : Bool
  srcPos : Int
  failPlan : List Bool
  frames : List FrameResult
deriving Repr, DecidableEq

/-- Outcome of the next `(io.Seeker).Seek` call on the source under a
fail plan: `true` means the call fails.  An exhausted plan means every
remaining call succeeds. -/
def nextSeekOutcome (plan : List Bool) : Bool × List Bool :=
  match plan with
  | [] => (false, [])
  | b :: rest => (b, rest)

/-- Model of the Go conversion `int64(x)` applied to a `uint64` value:
reduce modulo `2 ^ 64`, then values of `2 ^ 63` and above wrap to
negatives. -/
def goInt64 (x : Nat) : Int :=
  if x % 2 ^ 64 < 2 ^ 63 then ((x % 2 ^ 64 : Nat) : Int)
  else ((x % 2 ^ 64 : Nat) : Int) - 2 ^ 64

/-- Loop body of `Stream.searchFromStart`, with the Go loop variables
made explicit: `i` is the index, the third argument is the variable
`last`, and the fourth is the range variable `p`, which after the loop
still holds the last element visited (or its zero value `{0, 0, 0}` if
the table is empty).  The comparison `int64(p.SampleNum) >= sample`
(flac.go line 380) uses the wrapping conversion `goInt64`. -/
def sfsGo (sample : Int) : List SeekPoint → Nat → SeekPoint → SeekPoint → SeekPoint
  | [], _, _, p => p
  | q :: rest, i, prev, _ =>
    if sample ≤ goInt64 q.sampleNum then (if i = 0 then q else prev)
    else sfsGo sample rest (i + 1) q q

/-- Model of `Stream.searchFromStart` (flac.go lines 376-389). -/
def searchFromStart (points : List SeekPoint) (sample : Int) : SeekPoint :=
  sfsGo sample points 0 ⟨0, 0, 0⟩ ⟨0, 0, 0⟩

/-- Loop of `Stream.searchFromCurrent` (flac.go lines 355-368): scan for
the first point whose offset is at least the current relative offset;
if found, fall back to `searchFromStart` at that point's sample number
plus the requested delta; if the scan completes, return the range
variable `p` (the last element visited, or its zero value). -/
def sfcGo (all : List SeekPoint) (offset sample : Int) :
    List SeekPoint → SeekPoint → SeekPoint
  | [], p => p
  | q :: rest, _ =>
    if offset ≤ (q.offset : Int) then
      searchFromStart all ((q.sampleNum : Int) + sample)
    else sfcGo all offset sample rest q

/-- Model of the table lookup performed by `Stream.searchFromCurrent`
once the current source offset (relative to `dataStart`) is known. -/
def searchFromCurrentLoop (points : List SeekPoint) (offset sample : Int) : SeekPoint :=
  sfcGo points offset sample points ⟨0, 0, 0⟩

/-- Seek-table scan loop of `Stream.makeSeekTable` (flac.go lines
407-433).  Arguments: remaining frame results, current source position,
`dataStart`, running sample counter, fail plan of the source, and the
accumulated raw points `tmp`.  Returns the error (if any), the final
position, the remaining plan, and the accumulated points. -/
def scanFrames : List FrameResult → Int → Int → Nat → List Bool → List SeekPoint →
    Option GoErr × Int × List Bool × List SeekPoint
  | [], pos, _, _, plan, tmp => (none, pos, plan, tmp)
  | FrameResult.failure :: _, pos, _, _, plan, tmp => (some GoErr.frameErr, pos, plan, tmp)
  | FrameResult.frame bs len :: rest, pos, ds, sn, plan, tmp =>
    match nextSeekOutcome plan with
    | (true, plan1) => (some GoErr.seekErr, pos + (len : Int), plan1, tmp)
    | (false, plan1) =>
      scanFrames rest (pos + (len : Int)) ds (sn + bs) plan1
        (tmp ++ [SeekPoint.mk sn ((pos + (len : Int)) - ds).toNat bs])

/-- Down-sampling step of `Stream.makeSeekTable` (flac.go lines
435-445): stride `m` is `len(tmp) / seekTableSize` when `len(tmp)`
exceeds the configured size and `1` otherwise, and the indices that are
multiples of `m` are kept.  Note that Go panics with a division by zero
when `size = 0` and `tmp` is nonempty; `makeSeekTable` is only invoked
with a positive size, and the theorems below assume `1 ≤ size`. -/
def stride (tmp : List SeekPoint) (size : Nat) : Nat :=
  if size < tmp.length then tmp.length / size else 1

/-- Filtering step of the down-sampling: keep the points whose raw
index is a multiple of the stride. -/
def downsample (tmp : List SeekPoint) (size : Nat) : List SeekPoint :=
  (tmp.enum.filter (fun ip => decide (ip.1 % stride tmp size = 0))).map Prod.snd

/-- Model of `Stream.makeSeekTable` (flac.go lines 391-451): check the
source is a seeker, record the current position, seek to `dataStart`,
scan all frames collecting raw points, down-sample, install the table,
and finally restore the recorded position.  Every early `return err`
path of the Go code leaves the source wherever it was and the table
untouched, exactly as the Go code does. -/
def makeSeekTable (s : Stream) : Option GoErr × Stream :=
  if s.srcIsSeeker = false then (some GoErr.noSeeker, s)
  else
    match nextSeekOutcome s.failPlan with
    | (true, plan1) => (some GoErr.seekErr, { s with failPlan := plan1 })
    | (false, plan1) =>
      match nextSeekOutcome plan1 with
      | (true, plan2) => (some GoErr.seekErr, { s with failPlan := plan2 })
      | (false, plan2) =>
        match scanFrames s.frames s.dataStart s.dataStart 0 plan2 [] with
        | (some e, pos2, plan3, _) =>
          (some e, { s with srcPos := pos2, failPlan := plan3 })
        | (none, pos2, plan3, tmp) =>
          match nextSeekOutcome plan3 with
          | (true, plan4) =>
            (some GoErr.seekErr,
             { s with srcPos := pos2, failPlan := plan4,
                      seekTable := some (SeekTable.mk (downsample tmp s.seekTableSize)) })
          | (false, plan4) =>
            (none,
             { s with srcPos := s.srcPos, failPlan := plan4,
                      seekTable := some (SeekTable.mk (downsample tmp s.seekTableSize)) })

/-- Final repositioning of `Stream.Seek` (flac.go lines 351-352):
`rs.Seek(dataStart + int64(point.Offset), io.SeekStart)` followed by
returning `int64(point.SampleNum)`; a positioning failure is returned
as the error. -/
def finishSeek (s : Stream) (point : SeekPoint) : SeekRes × Stream :=
  match nextSeekOutcome s.failPlan with
  | (true, plan1) => (SeekRes.err GoErr.seekErr, { s with failPlan := plan1 })
  | (false, plan1) =>
    (SeekRes.ok (point.sampleNum : Int),
     { s with failPlan := plan1, srcPos := s.dataStart + (point.offset : Int) })

/-- Model of `Stream.Seek` (flac.go lines 326-353).  The build step runs
only when no table exists and the configured size is positive; the Go
type assertion `stream.r.(io.ReadSeeker)` panics (`SeekRes.crash`) on a
non-seeking source, and the method dereferences `stream.seekTable`
inside the search helpers, which panics when the table is still nil. -/
def Stream.Seek (s : Stream) (sampleNum : Int) (whence : Int) : SeekRes × Stream :=
  match (if s.seekTable = none ∧ 0 < s.seekTableSize then makeSeekTable s else (none, s)) with
  | (some e, s1) => (SeekRes.err e, s1)
  | (none, s1) =>
    if s1.srcIsSeeker = false then (SeekRes.crash, s1)
    else if whence = 0 then
      match s1.seekTable with
      | none => (SeekRes.crash, s1)
      | some t => finishSeek s1 (searchFromStart t.points sampleNum)
    else if whence = 1 then
      match nextSeekOutcome s1.failPlan with
      | (true, plan1) => (SeekRes.err GoErr.seekErr, { s1 with failPlan := plan1 })
      | (false, plan1) =>
        match s1.seekTable with
        | none => (SeekRes.crash, { s1 with failPlan := plan1 })
        | some t =>
          finishSeek { s1 with failPlan := plan1 }
            (searchFromCurrentLoop t.points (s1.srcPos - s1.dataStart) sampleNum)
    else if whence = 2 then
      match s1.seekTable with
      | none => (SeekRes.crash, s1)
      | some t => finishSeek s1 (searchFromStart t.points ((s1.nsamples : Int) + sampleNum))
    else (SeekRes.err GoErr.invalidSeek, s1)

/-- Model of the size computation in `Stream.skipID3v2` (flac.go line
206): `int(b0)<<21 | int(b1)<<14 | int(b2)<<7 | int(b3)`.  The Go code
does not mask the bytes to their low 7 bits. -/
def id3v2Size (b0 b1 b2 b3 : Nat) : Nat :=
  (b0 <<< 21) ||| (b1 <<< 14) ||| (b2 <<< 7) ||| b3

/-- Byte-stream read primitive: take `n` bytes from the front, failing
when fewer are available.  It models `io.ReadFull`, `bufio.Discard`
(which errors when it cannot skip `n` bytes), and the 4-byte buffer
read, all of which logically consume exactly `n` bytes. -/
def readN (n : Nat) (src : List Nat) : Option (List Nat × List Nat) :=
  if n ≤ src.length then some (src.take n, src.drop n) else none

/-- First three bytes of an ID3v2 container, the bytes of "ID3". -/
def id3Signature : List Nat := [73, 68, 51]

/-- Model of `Stream.skipID3v2` (flac.go lines 191-210) on the buffered
path (`New` / `Parse`, where `stream.r` is already a `bufio.Reader`, so
the `bufio.NewReader(stream.r)` at line 193 returns it unchanged and no
bytes can be lost): discard 2 bytes, read the 4 size bytes, decode, and
discard that many bytes.  The `NewSeek` path, where line 193 creates a
fresh read-ahead buffer that is dropped on return, is modelled
separately by `skipID3v2Raw` below. -/
def skipID3v2 (src : List Nat) : Option (List Nat) :=
  match readN 2 src with
  | none => none
  | some (_, s1) =>
    match readN 4 s1 with
    | none => none
    | some (sizeBuf, s2) =>
      match readN (id3v2Size (sizeBuf.getD 0 0) (sizeBuf.getD 1 0)
          (sizeBuf.getD 2 0) (sizeBuf.getD 3 0)) s2 with
      | none => none
      | some (_, s3) => some s3

/-- Signature phase of `Stream.parseStreamInfo` (flac.go lines 154-176)
on the buffered path: read 4 bytes; when the first 3 equal the ID3
signature, skip the ID3v2 container and re-read 4 bytes.  Returns the
4 bytes that are compared against the FLAC signature, together with
the remaining stream. -/
def readSignature (src : List Nat) : Option (List Nat × List Nat) :=
  match readN 4 src with
  | none => none
  | some (buf, s1) =>
    if buf.take 3 = id3Signature then
      match skipID3v2 s1 with
      | none => none
      | some s2 =>
        match readN 4 s2 with
        | none => none
        | some (buf2, s3) => some (buf2, s3)
    else some (buf, s1)

/-- Closed-form model of `(*bufio.Reader).Discard(n)` over a source
that serves each fill with `min(4096, remaining)` bytes — the behaviour
of `bytes.Reader`, the source type the package documentation recommends
for `NewSeek`.  Bytes are taken from the buffer first; then whole fills
are consumed from the source and the unread tail of the last fill stays
in the buffer.  Returns the new buffer and source, failing (as
`Discard` does) when fewer than `n` bytes exist in total. -/
def bdiscard (n : Nat) (buf src : List Nat) : Option (List Nat × List Nat) :=
  if n ≤ buf.length then some (buf.drop n, src)
  else
    if n - buf.length ≤ src.length then
      some (((src.take (min ((n - buf.length + 4095) / 4096 * 4096) src.length)).drop
          (n - buf.length)),
        src.drop (min ((n - buf.length + 4095) / 4096 * 4096) src.length))
    else none

/-- Model of `(*bufio.Reader).Read` into the 4-byte size array: at most
one fill, and at most the buffered bytes are returned without error;
the unread entries of the array keep their zero value (the code ignores
the returned count).  Errors only when no byte is available.  Returns
the bytes read, the new buffer and the new source. -/
def bread4 (buf src : List Nat) : Option (List Nat × List Nat × List Nat) :=
  if buf.isEmpty then
    if src.isEmpty then none
    else some ((src.take 4096).take 4, (src.take 4096).drop 4, src.drop 4096)
  else some (buf.take 4, buf.drop 4, src)

/-- Model of `Stream.skipID3v2` on the `NewSeek` path, where `stream.r`
is the raw unbuffered `io.ReadSeeker`: the `bufio.NewReader(stream.r)`
at flac.go line 193 creates a fresh buffered reader whose fills read
ahead of what the function consumes, and the buffer is dropped when the
function returns, so every byte still in it is lost to the caller —
only the remaining source is visible to the re-read that follows. -/
def skipID3v2Raw (src : List Nat) : Option (List Nat) :=
  match bdiscard 2 [] src with
  | none => none
  | some (buf1, src1) =>
    match bread4 buf1 src1 with
    | none => none
    | some (sizeBuf, buf2, src2) =>
      match bdiscard (id3v2Size (sizeBuf.getD 0 0) (sizeBuf.getD 1 0)
          (sizeBuf.getD 2 0) (sizeBuf.getD 3 0)) buf2 src2 with
      | none => none
      | some (_, src3) => some src3

/-- Signature phase of `Stream.parseStreamInfo` on the `NewSeek` path:
the two 4-byte reads at flac.go lines 158 and 169 go through `stream.r`
directly (`io.ReadFull` on the raw ReadSeeker), while the container
skip runs through the temporary buffered reader of `skipID3v2Raw`. -/
def readSignatureRaw (src : List Nat) : Option (List Nat × List Nat) :=
  match readN 4 src with
  | none => none
  | some (buf, s1) =>
    if buf.take 3 = id3Signature then
      match skipID3v2Raw s1 with
      | none => none
      | some s2 =>
        match readN 4 s2 with
        | none => none
        | some (buf2, s3) => some (buf2, s3)
    else some (buf, s1)

/-- Helper for statements: the index of the first point whose sample
number is at least the target, following the specification's words
(scan in order, the first point with `sampleNum >= absolute position`
terminates the scan). -/
def firstGE (sample : Int) : List SeekPoint → Option Nat
  | [] => none
  | q :: rest =>
    if sample ≤ (q.sampleNum : Int) then some 0
    else (firstGE sample rest).map (· + 1)

/-- Floor search as the specification words it: if the first point with
`sampleNum >= ` target is the very first table entry, return it as-is;
otherwise return the immediately preceding point; if no point matches,
return the table's last point.  This is the refinement target that
`searchFromStart` is compared with. -/
def specFloorSearch (points : List SeekPoint) (sample : Int) : SeekPoint :=
  match firstGE sample points with
  | some 0 => points.headD ⟨0, 0, 0⟩
  | some (j + 1) => points.getD j ⟨0, 0, 0⟩
  | none => points.getLastD ⟨0, 0, 0⟩

/-- Frames that scan without a decode failure (graceful EOF at the
end). -/
def allOk (frames : List FrameResult) : Bool :=
  frames.all (fun fr => match fr with
    | FrameResult.failure => false
    | FrameResult.frame _ _ => true)

/-! ### Helper lemmas -/

/-- Combining a shifted value with a small value by bitwise or is plain
addition. -/
theorem shiftLeft_lor_eq_add (a b k : Nat) (h : b < 2 ^ k) :
    ((a <<< k) ||| b) = a * 2 ^ k + b := by
  rw [Nat.shiftLeft_eq a k, Nat.mul_comm a (2 ^ k)]
  exact (Nat.mul_add_lt_is_or h a).symm

/-! ### C6: the synchsafe size decode -/

/-- C6 (counterexample): the claim states that the decoded size uses
only the low 7 bits of each byte and is bounded by 28 bits; the code
does neither, as the byte value 255 in the most significant position
shows. -/
theorem id3v2Size_mask_counterexample :
    id3v2Size 255 0 0 0 ≠
      255 % 128 * 2 ^ 21 + 0 % 128 * 2 ^ 14 + 0 % 128 * 2 ^ 7 + 0 % 128 ∧
    ¬ id3v2Size 255 0 0 0 < 2 ^ 28 := by
  constructor <;> decide

/-- C6 (amended): for bytes whose high bit is clear (valid synchsafe
encoding), the decoded size equals the claimed weighted sum and is
bounded by 28 bits; the code does not mask the high bits, so bytes that
are 128 or larger contribute their full 8-bit value via bitwise or. -/
theorem id3v2Size_synchsafe (b0 b1 b2 b3 : Nat)
    (h0 : b0 < 128) (h1 : b1 < 128) (h2 : b2 < 128) (h3 : b3 < 128) :
    id3v2Size b0 b1 b2 b3 = b0 * 2 ^ 21 + b1 * 2 ^ 14 + b2 * 2 ^ 7 + b3 ∧
    id3v2Size b0 b1 b2 b3 < 2 ^ 28 := by
  have e3 : (b2 <<< 7) ||| b3 = b2 * 2 ^ 7 + b3 :=
    shiftLeft_lor_eq_add b2 b3 7 (by omega)
  have e2 : (b1 <<< 14) ||| ((b2 <<< 7) ||| b3) =
      b1 * 2 ^ 14 + (b2 * 2 ^ 7 + b3) := by
    rw [e3]
    exact shiftLeft_lor_eq_add b1 _ 14 (by omega)
  have e1 : (b0 <<< 21) ||| ((b1 <<< 14) ||| ((b2 <<< 7) ||| b3)) =
      b0 * 2 ^ 21 + (b1 * 2 ^ 14 + (b2 * 2 ^ 7 + b3)) := by
    rw [e2]
    exact shiftLeft_lor_eq_add b0 _ 21 (by omega)
  have eAssoc : id3v2Size b0 b1 b2 b3 =
      (b0 <<< 21) ||| ((b1 <<< 14) ||| ((b2 <<< 7) ||| b3)) := by
    simp [id3v2Size, Nat.or_assoc]
  rw [eAssoc, e1]
  constructor
  · ring
  · omega

/-- C6 (witness): the amended statement instantiated at the concrete
bytes 1, 2, 3, 4. -/
theorem id3v2Size_synchsafe_witness :
    id3v2Size 1 2 3 4 = 1 * 2 ^ 21 + 2 * 2 ^ 14 + 3 * 2 ^ 7 + 4 ∧
    id3v2Size 1 2 3 4 < 2 ^ 28 :=
  id3v2Size_synchsafe 1 2 3 4 (by decide) (by decide) (by decide) (by decide)

/-! ### C2: seeking without a usable source or table -/

/-- C2: when no seek table exists and synthesis is disabled
(seekTableSize = 0), `Stream.Seek` crashes instead of returning the
seek-unsupported error: with a non-seeking source the type assertion
`stream.r.(io.ReadSeeker)` panics, and with a seeking source the nil
`stream.seekTable` is dereferenced inside `searchFromStart`. -/
theorem seek_crashes_without_table_or_seeker :
    (Stream.Seek (Stream.mk 0 none 0 0 false 0 [] []) 0 0).1 = SeekRes.crash ∧
    (Stream.Seek (Stream.mk 0 none 0 0 true 0 [] []) 0 0).1 = SeekRes.crash := by
  constructor <;> rfl

/-! ### C3: seeking on an empty seek table -/

/-- C3 (counterexample): on a session with an empty seek table, `Seek`
does not fail with the seek-unsupported error; it silently returns
achieved sample 0. -/
theorem seek_emptyTable_counterexample :
    (Stream.Seek (Stream.mk 0 (some (SeekTable.mk [])) 100 42 true 7 [] []) 12345 0).1 =
      SeekRes.ok 0 ∧
    (Stream.Seek (Stream.mk 0 (some (SeekTable.mk [])) 100 42 true 7 [] []) 12345 0).1 ≠
      SeekRes.err GoErr.noSeeker := by
  constructor <;> decide

/-- C3 (amended): a seek on a session whose seek table is empty returns
the zero value of the seek-point type, achieving sample 0 with no error
and no index-out-of-range failure, and repositions the source to
`dataStart`, for every target sample and every valid mode. -/
theorem seek_emptyTable_returns_zero (s : Stream)
    (ht : s.seekTable = some (SeekTable.mk []))
    (hseek : s.srcIsSeeker = true) (hplan : s.failPlan = [])
    (sample whence : Int) (hw : whence = 0 ∨ whence = 1 ∨ whence = 2) :
    (Stream.Seek s sample whence).1 = SeekRes.ok 0 ∧
    (Stream.Seek s sample whence).2.srcPos = s.dataStart := by
  rcases hw with rfl | rfl | rfl <;>
    simp [Stream.Seek, ht, hseek, hplan, finishSeek, nextSeekOutcome,
      searchFromStart, sfsGo, searchFromCurrentLoop, sfcGo]

/-- C3 (witness): the amended statement at a concrete session, target
sample 12345, mode from-start. -/
theorem seek_emptyTable_returns_zero_witness :
    (Stream.Seek (Stream.mk 9 (some (SeekTable.mk [])) 100 42 true 7 [] []) 12345 0).1 =
      SeekRes.ok 0 ∧
    (Stream.Seek (Stream.mk 9 (some (SeekTable.mk [])) 100 42 true 7 [] []) 12345 0).2.srcPos =
      (Stream.mk 9 (some (SeekTable.mk [])) 100 42 true 7 [] []).dataStart :=
  seek_emptyTable_returns_zero (Stream.mk 9 (some (SeekTable.mk [])) 100 42 true 7 [] [])
    rfl rfl rfl 12345 0 (Or.inl rfl)

/-! ### C1: the floor search -/

/-- On sample numbers below `2 ^ 63` the wrapping conversion agrees
with the plain coercion. -/
theorem goInt64_eq_ofNat (x : Nat) (h : x < 2 ^ 63) : goInt64 x = (x : Int) := by
  unfold goInt64
  rw [Nat.mod_eq_of_lt (by omega : x < 2 ^ 64)]
  rw [if_pos h]

/-- C1 (counterexample): a table holding a FLAC placeholder seek point
(`sampleNum = 2 ^ 64 - 1`, as `NewSeek` installs verbatim from an
embedded seek table): `int64(p.SampleNum)` wraps to `-1`, so the code
never lets the placeholder terminate the scan and falls through to
return it as the last point, while the claimed floor search returns the
point preceding the placeholder. -/
theorem searchFromStart_wrap_counterexample :
    searchFromStart [SeekPoint.mk 0 0 4096, SeekPoint.mk (2 ^ 64 - 1) 0 0] 5 =
      SeekPoint.mk (2 ^ 64 - 1) 0 0 ∧
    specFloorSearch [SeekPoint.mk 0 0 4096, SeekPoint.mk (2 ^ 64 - 1) 0 0] 5 =
      SeekPoint.mk 0 0 4096 ∧
    SeekPoint.mk (2 ^ 64 - 1) 0 0 ≠ SeekPoint.mk 0 0 4096 := by
  refine ⟨?_, ?_, ?_⟩ <;> decide

/-- Tail behaviour of the `searchFromStart` loop on tables whose sample
numbers fit in `int64`: once past the first iteration (index at least
1, with the `last` variable and the range variable both holding the
previously visited point), the loop returns the point just before the
first match, or the last visited point when no match exists. -/
theorem sfsGo_tail (sample : Int) (rest : List SeekPoint) :
    ∀ (i : Nat) (prev : SeekPoint),
      (∀ p ∈ rest, p.sampleNum < 2 ^ 63) →
      sfsGo sample rest (i + 1) prev prev =
        match firstGE sample rest with
        | some j => (prev :: rest).getD j ⟨0, 0, 0⟩
        | none => rest.getLastD prev := by
  induction rest with
  | nil => intro i prev _; rfl
  | cons q tl ih =>
    intro i prev hb
    have hgq : goInt64 q.sampleNum = (q.sampleNum : Int) :=
      goInt64_eq_ofNat _ (hb q (List.mem_cons_self q tl))
    have hbtl : ∀ p ∈ tl, p.sampleNum < 2 ^ 63 :=
      fun p hp => hb p (List.mem_cons_of_mem q hp)
    by_cases hq : sample ≤ (q.sampleNum : Int)
    · simp [sfsGo, hgq, hq, firstGE]
    · have step : sfsGo sample (q :: tl) (i + 1) prev prev =
          sfsGo sample tl (i + 1 + 1) q q := by
        simp [sfsGo, hgq, hq]
      rw [step, ih (i + 1) q hbtl]
      simp only [firstGE, if_neg hq]
      cases hf : firstGE sample tl with
      | none =>
        simp only [hf, Option.map_none']
        rw [List.getLastD_cons]
      | some j => simp [hf]

/-- C1 (amended): on every non-empty seek table whose points' sample
numbers are all below `2 ^ 63` — so the Go `uint64` to `int64`
conversion at the comparison does not wrap — `searchFromStart` is
exactly the specification's floor search: the scan stops at the first
point with `sampleNum` at least the target and returns it when it is
the first entry and the preceding point otherwise, and returns the
last point when no point reaches the target.  For a point with
`sampleNum ≥ 2 ^ 63` (a placeholder seek point) the wrapped comparison
is negative and the code skips it, diverging from the floor search. -/
theorem searchFromStart_eq_specFloorSearch (points : List SeekPoint) (sample : Int)
    (h : points ≠ []) (hb : ∀ p ∈ points, p.sampleNum < 2 ^ 63) :
    searchFromStart points sample = specFloorSearch points sample := by
  cases points with
  | nil => exact absurd rfl h
  | cons q tl =>
    have hgq : goInt64 q.sampleNum = (q.sampleNum : Int) :=
      goInt64_eq_ofNat _ (hb q (List.mem_cons_self q tl))
    have hbtl : ∀ p ∈ tl, p.sampleNum < 2 ^ 63 :=
      fun p hp => hb p (List.mem_cons_of_mem q hp)
    by_cases hq : sample ≤ (q.sampleNum : Int)
    · simp [searchFromStart, sfsGo, hgq, hq, specFloorSearch, firstGE]
    · have step : searchFromStart (q :: tl) sample = sfsGo sample tl 1 q q := by
        simp [searchFromStart, sfsGo, hgq, hq]
      rw [step, sfsGo_tail sample tl 0 q hbtl]
      simp only [specFloorSearch, firstGE, if_neg hq]
      cases hf : firstGE sample tl with
      | none =>
        simp only [hf, Option.map_none']
        rw [List.getLastD_cons]
      | some j => simp [hf]

/-- C1 (witness): the specification's own scenario, a table indexing
samples 0, 4096 and 8192 (all far below `2 ^ 63`) with a floor lookup
of 5000 landing on 4096. -/
theorem searchFromStart_eq_specFloorSearch_witness :
    ([SeekPoint.mk 0 0 4096, SeekPoint.mk 4096 100 4096, SeekPoint.mk 8192 200 4096] ≠
      ([] : List SeekPoint)) ∧
    (∀ p ∈ [SeekPoint.mk 0 0 4096, SeekPoint.mk 4096 100 4096, SeekPoint.mk 8192 200 4096],
      p.sampleNum < 2 ^ 63) ∧
    searchFromStart
        [SeekPoint.mk 0 0 4096, SeekPoint.mk 4096 100 4096, SeekPoint.mk 8192 200 4096] 5000 =
      specFloorSearch
        [SeekPoint.mk 0 0 4096, SeekPoint.mk 4096 100 4096, SeekPoint.mk 8192 200 4096] 5000 :=
  ⟨by decide, by decide,
   searchFromStart_eq_specFloorSearch
     [SeekPoint.mk 0 0 4096, SeekPoint.mk 4096 100 4096, SeekPoint.mk 8192 200 4096] 5000
     (by decide) (by decide)⟩

/-! ### C10: from-current seek past every indexed offset -/

/-- Loop behaviour of `searchFromCurrent` when every point's offset is
strictly below the current relative offset: the scan falls through and
returns the last visited point. -/
theorem sfcGo_all_lt (all : List SeekPoint) (offset sample : Int) :
    ∀ (l : List SeekPoint) (prev : SeekPoint),
      (∀ p ∈ l, (p.offset : Int) < offset) →
      sfcGo all offset sample l prev = l.getLastD prev := by
  intro l
  induction l with
  | nil => intro prev _; rfl
  | cons q tl ih =>
    intro prev hall
    have hq : ¬ offset ≤ (q.offset : Int) := by
      have := hall q (List.mem_cons_self q tl)
      omega
    have step : sfcGo all offset sample (q :: tl) prev = sfcGo all offset sample tl q := by
      simp [sfcGo, hq]
    rw [step, ih q (fun p hp => hall p (List.mem_cons_of_mem q hp)), List.getLastD_cons]

/-- C10: seeking in from-current mode on a non-empty table, when the
current byte offset relative to `dataStart` is strictly greater than
every point's offset, returns the table's last point; the relative
target-sample delta is never applied, so the achieved sample is the
last point's sample number for every requested delta. -/
theorem seek_fromCurrent_past_all_points (s : Stream) (t : SeekTable)
    (ht : s.seekTable = some t) (_hne : t.points ≠ [])
    (hseek : s.srcIsSeeker = true) (hplan : s.failPlan = [])
    (hpast : ∀ p ∈ t.points, (p.offset : Int) < s.srcPos - s.dataStart) :
    ∀ sample : Int,
      (Stream.Seek s sample 1).1 =
        SeekRes.ok ((t.points.getLastD ⟨0, 0, 0⟩).sampleNum : Int) ∧
      (Stream.Seek s sample 1).2.srcPos =
        s.dataStart + ((t.points.getLastD ⟨0, 0, 0⟩).offset : Int) := by
  intro sample
  have hloop : searchFromCurrentLoop t.points (s.srcPos - s.dataStart) sample =
      t.points.getLastD ⟨0, 0, 0⟩ := by
    unfold searchFromCurrentLoop
    rw [sfcGo_all_lt t.points (s.srcPos - s.dataStart) sample t.points ⟨0, 0, 0⟩ hpast]
  simp [Stream.Seek, ht, hseek, hplan, nextSeekOutcome, hloop, finishSeek]

/-- C10 (witness): a concrete session whose source sits past both seek
points: the from-current seek with delta 999 achieves sample 4096, the
last point's sample number. -/
theorem seek_fromCurrent_past_all_points_witness :
    (Stream.Seek
        (Stream.mk 0 (some (SeekTable.mk [SeekPoint.mk 0 10 4096, SeekPoint.mk 4096 20 4096]))
          100 0 true 100 [] []) 999 1).1 = SeekRes.ok 4096 ∧
    (Stream.Seek
        (Stream.mk 0 (some (SeekTable.mk [SeekPoint.mk 0 10 4096, SeekPoint.mk 4096 20 4096]))
          100 0 true 100 [] []) 999 1).2.srcPos = 20 := by
  have h := seek_fromCurrent_past_all_points
    (Stream.mk 0 (some (SeekTable.mk [SeekPoint.mk 0 10 4096, SeekPoint.mk 4096 20 4096]))
      100 0 true 100 [] [])
    (SeekTable.mk [SeekPoint.mk 0 10 4096, SeekPoint.mk 4096 20 4096])
    rfl (by decide) rfl rfl (by decide) 999
  simpa using h

/-! ### The seek-table build -/

/-- Behaviour of the scan loop on a failure-free frame sequence with an
all-success source: it finishes with no error, leaves the plan empty,
and appends one raw point per frame, the first of which carries the
running sample counter and the end offset of the first frame. -/
theorem scanFrames_allOk : ∀ (frames : List FrameResult), allOk frames = true →
    ∀ (pos ds : Int) (sn : Nat) (tmp0 : List SeekPoint),
      ∃ pos2 tmpN,
        scanFrames frames pos ds sn [] tmp0 = (none, pos2, [], tmp0 ++ tmpN) ∧
        tmpN.length = frames.length ∧
        (∀ bs len rest, frames = FrameResult.frame bs len :: rest →
          tmpN.head? = some (SeekPoint.mk sn ((pos + (len : Int)) - ds).toNat bs)) := by
  intro frames
  induction frames with
  | nil =>
    intro _ pos ds sn tmp0
    exact ⟨pos, [], by simp [scanFrames], by simp, fun bs len rest h => by cases h⟩
  | cons fr tl ih =>
    intro hok pos ds sn tmp0
    cases fr with
    | failure => simp [allOk] at hok
    | frame bs len =>
      have hok' : allOk tl = true := by
        simp only [allOk, List.all_cons, Bool.and_eq_true] at hok
        exact hok.2
      obtain ⟨pos2, tmpN, hscan, hlen, _⟩ := ih hok' (pos + (len : Int)) ds (sn + bs)
        (tmp0 ++ [SeekPoint.mk sn ((pos + (len : Int)) - ds).toNat bs])
      refine ⟨pos2, SeekPoint.mk sn ((pos + (len : Int)) - ds).toNat bs :: tmpN, ?_, ?_, ?_⟩
      · simp only [scanFrames, nextSeekOutcome]
        rw [hscan]
        simp
      · simp [hlen]
      · intro bs' len' rest h
        injection h with h1 _
        injection h1 with hbs hlen'
        subst hbs
        subst hlen'
        simp

/-- The build on a seeking source with an all-success plan and a
failure-free frame sequence: the scan succeeds and the whole build
returns no error, installing the down-sampled table and restoring the
source position. -/
theorem makeSeekTable_success (s : Stream) (hseek : s.srcIsSeeker = true)
    (hplan : s.failPlan = []) (hok : allOk s.frames = true) :
    ∃ pos2 tmpN,
      scanFrames s.frames s.dataStart s.dataStart 0 [] [] = (none, pos2, [], tmpN) ∧
      tmpN.length = s.frames.length ∧
      (∀ bs len rest, s.frames = FrameResult.frame bs len :: rest →
        tmpN.head? = some (SeekPoint.mk 0 (((s.dataStart + (len : Int)) - s.dataStart)).toNat bs)) ∧
      makeSeekTable s =
        (none, { s with seekTable := some (SeekTable.mk (downsample tmpN s.seekTableSize)),
                        failPlan := [] }) := by
  obtain ⟨pos2, tmpN, hscan, hlen, hhd⟩ :=
    scanFrames_allOk s.frames hok s.dataStart s.dataStart 0 []
  rw [List.nil_append] at hscan
  refine ⟨pos2, tmpN, hscan, hlen, hhd, ?_⟩
  unfold makeSeekTable
  rw [if_neg (by rw [hseek]; simp)]
  rw [hplan]
  simp only [nextSeekOutcome]
  rw [hscan]

/-! ### C8: restoring the source position -/

/-- C8 (counterexample): a frame-decode failure at the second frame
makes the build return the error with the source left at the failure
position, not at the position recorded when the build started (the Go
code has no deferred restore on its early-return paths). -/
theorem makeSeekTable_no_restore_counterexample :
    (makeSeekTable (Stream.mk 0 none 100 100 true 5 []
        [FrameResult.frame 4096 200, FrameResult.failure])).1 = some GoErr.frameErr ∧
    (makeSeekTable (Stream.mk 0 none 100 100 true 5 []
        [FrameResult.frame 4096 200, FrameResult.failure])).2.srcPos ≠
      (Stream.mk 0 none 100 100 true 5 []
        [FrameResult.frame 4096 200, FrameResult.failure]).srcPos := by
  constructor <;> decide

/-- C8 (amended): a build that returns without an error (the scan ended
at graceful end-of-stream and every positioning call succeeded) restores
the source to the position it had when the build started; every failing
build returns early without restoring, except that the restore step
itself cannot fail on a successful return. -/
theorem makeSeekTable_restores_on_success (s : Stream)
    (h : (makeSeekTable s).1 = none) :
    (makeSeekTable s).2.srcPos = s.srcPos := by
  revert h
  unfold makeSeekTable
  split
  · intro h; exact absurd h (by simp)
  · split
    · intro h; exact absurd h (by simp)
    · split
      · intro h; exact absurd h (by simp)
      · split
        · intro h; exact absurd h (by simp)
        · split
          · intro h; exact absurd h (by simp)
          · intro _; rfl

/-- C8 (witness): the amended statement at a concrete one-frame
session: the build succeeds and the source position 5 is restored. -/
theorem makeSeekTable_restores_on_success_witness :
    (makeSeekTable (Stream.mk 0 none 100 10 true 5 [] [FrameResult.frame 4096 200])).1 =
      none ∧
    (makeSeekTable (Stream.mk 0 none 100 10 true 5 [] [FrameResult.frame 4096 200])).2.srcPos =
      (Stream.mk 0 none 100 10 true 5 [] [FrameResult.frame 4096 200]).srcPos :=
  ⟨rfl, makeSeekTable_restores_on_success
    (Stream.mk 0 none 100 10 true 5 [] [FrameResult.frame 4096 200]) rfl⟩

/-! ### C7: the first synthesized seek point -/

/-- Head of a down-sampled nonempty table: index 0 is a multiple of
every stride, so the first raw point is always kept first. -/
theorem downsample_head (p0 : SeekPoint) (tl : List SeekPoint) (size : Nat) :
    (downsample (p0 :: tl) size).head? = some p0 := by
  unfold downsample
  rw [List.enum_cons, List.filter_cons]
  simp

/-- C7 (counterexample): for a stream with a single frame occupying 200
bytes, the synthesized table's first element is the point
`(sampleNum 0, offset 200)`: the offset is the position after parsing
the first frame, not 0 as the claim states. -/
theorem makeSeekTable_first_point_counterexample :
    (makeSeekTable (Stream.mk 0 none 100 10 true 5 []
        [FrameResult.frame 4096 200])).2.seekTable =
      some (SeekTable.mk [SeekPoint.mk 0 200 4096]) ∧ (200 : Nat) ≠ 0 := by
  constructor <;> decide

/-- C7 (amended): for every stream with at least one frame (and a clean
build), the synthesized seek table's first element has `sampleNum = 0`
and `offset` equal to the byte length of the first frame — the source
position after parsing the first frame, relative to `dataStart` — since
the code queries the position only after `ParseNext` returns. -/
theorem makeSeekTable_first_point (s : Stream) (bs len : Nat) (rest : List FrameResult)
    (hfr : s.frames = FrameResult.frame bs len :: rest)
    (hseek : s.srcIsSeeker = true) (hplan : s.failPlan = [])
    (hok : allOk s.frames = true) :
    ∃ t, (makeSeekTable s).2.seekTable = some t ∧
      t.points.head? = some (SeekPoint.mk 0 len bs) := by
  obtain ⟨pos2, tmpN, hscan, hlen, hhd, hmk⟩ := makeSeekTable_success s hseek hplan hok
  have hh := hhd bs len rest hfr
  have hoff : ((s.dataStart + (len : Int)) - s.dataStart).toNat = len := by
    simp
  rw [hoff] at hh
  cases htmp : tmpN with
  | nil => rw [htmp] at hh; simp at hh
  | cons p0 tl =>
    rw [htmp] at hh
    simp only [List.head?_cons, Option.some.injEq] at hh
    refine ⟨SeekTable.mk (downsample tmpN s.seekTableSize), by rw [hmk], ?_⟩
    rw [htmp, downsample_head, hh]

/-- C7 (witness): the amended statement at the concrete one-frame
session of the counterexample. -/
theorem makeSeekTable_first_point_witness :
    ∃ t, (makeSeekTable (Stream.mk 0 none 100 10 true 5 []
        [FrameResult.frame 4096 200])).2.seekTable = some t ∧
      t.points.head? = some (SeekPoint.mk 0 200 4096) :=
  makeSeekTable_first_point (Stream.mk 0 none 100 10 true 5 [] [FrameResult.frame 4096 200])
    4096 200 [] rfl rfl rfl rfl

/-! ### C9: failed builds and partial tables -/

/-- Shape of the seek table after any build: it is either untouched
(every early-return path) or the complete down-sampled table of a scan
that ran to graceful end-of-stream (the install, which happens just
before the final restore).  No partially scanned table is ever
installed. -/
theorem makeSeekTable_table_shape (s : Stream) :
    (makeSeekTable s).2.seekTable = s.seekTable ∨
    ∃ pos2 plan3 tmpN plan2,
      scanFrames s.frames s.dataStart s.dataStart 0 plan2 [] = (none, pos2, plan3, tmpN) ∧
      (makeSeekTable s).2.seekTable =
        some (SeekTable.mk (downsample tmpN s.seekTableSize)) := by
  unfold makeSeekTable
  split
  · left; rfl
  · split
    · left; rfl
    · split
      · left; rfl
      · split
        · left; rfl
        · rename_i pos2 plan3 tmpN heq
          split
          · right; exact ⟨pos2, plan3, tmpN, _, heq, rfl⟩
          · right; exact ⟨pos2, plan3, tmpN, _, heq, rfl⟩

/-- C9 (counterexample): when only the final restore positioning call
fails, the build returns that error yet the complete table has already
been installed in the session: the seek-table field does not stay
absent on every failing build. -/
theorem build_failure_installs_table_counterexample :
    (makeSeekTable (Stream.mk 0 none 100 100 true 5 [false, false, false, true]
        [FrameResult.frame 4096 200])).1 = some GoErr.seekErr ∧
    (makeSeekTable (Stream.mk 0 none 100 100 true 5 [false, false, false, true]
        [FrameResult.frame 4096 200])).2.seekTable =
      some (SeekTable.mk [SeekPoint.mk 0 200 4096]) ∧
    (Stream.mk 0 none 100 100 true 5 [false, false, false, true]
        [FrameResult.frame 4096 200]).seekTable = none := by
  refine ⟨?_, ?_, ?_⟩ <;> decide

/-- C9 (amended): every failing build makes the seek call return that
error, and the seek-table field is left unchanged on every failure
during the scan or before it; only a failure of the final restore call
returns an error with the table already installed, and that table is
the complete down-sampled result of a scan that reached graceful
end-of-stream — never a partial one. -/
theorem build_failure_no_partial_table (s s' : Stream) (e : GoErr)
    (h : makeSeekTable s = (some e, s')) :
    (∀ sample whence : Int, s.seekTable = none → 0 < s.seekTableSize →
      (Stream.Seek s sample whence).1 = SeekRes.err e) ∧
    (s'.seekTable = s.seekTable ∨
      ∃ pos2 plan3 tmpN plan2,
        scanFrames s.frames s.dataStart s.dataStart 0 plan2 [] = (none, pos2, plan3, tmpN) ∧
        s'.seekTable = some (SeekTable.mk (downsample tmpN s.seekTableSize))) := by
  constructor
  · intro sample whence h1 h2
    unfold Stream.Seek
    rw [if_pos ⟨h1, h2⟩, h]
  · have hs' : s' = (makeSeekTable s).2 := by rw [h]
    rw [hs']
    exact makeSeekTable_table_shape s

/-- C9 (witness): a build failing at the first frame (decode failure)
leaves the table absent and makes the seek call return the frame
error. -/
theorem build_failure_no_partial_table_witness :
    makeSeekTable (Stream.mk 0 none 100 0 true 0 [] [FrameResult.failure]) =
      (some GoErr.frameErr,
       (makeSeekTable (Stream.mk 0 none 100 0 true 0 [] [FrameResult.failure])).2) ∧
    ((∀ sample whence : Int,
        (Stream.mk 0 none 100 0 true 0 [] [FrameResult.failure]).seekTable = none →
        0 < (Stream.mk 0 none 100 0 true 0 [] [FrameResult.failure]).seekTableSize →
        (Stream.Seek (Stream.mk 0 none 100 0 true 0 [] [FrameResult.failure])
          sample whence).1 = SeekRes.err GoErr.frameErr) ∧
      ((makeSeekTable (Stream.mk 0 none 100 0 true 0 [] [FrameResult.failure])).2.seekTable =
          (Stream.mk 0 none 100 0 true 0 [] [FrameResult.failure]).seekTable ∨
        ∃ pos2 plan3 tmpN plan2,
          scanFrames (Stream.mk 0 none 100 0 true 0 [] [FrameResult.failure]).frames
              (Stream.mk 0 none 100 0 true 0 [] [FrameResult.failure]).dataStart
              (Stream.mk 0 none 100 0 true 0 [] [FrameResult.failure]).dataStart
              0 plan2 [] = (none, pos2, plan3, tmpN) ∧
          (makeSeekTable (Stream.mk 0 none 100 0 true 0 [] [FrameResult.failure])).2.seekTable =
            some (SeekTable.mk (downsample tmpN
              (Stream.mk 0 none 100 0 true 0 [] [FrameResult.failure]).seekTableSize)))) :=
  ⟨rfl, build_failure_no_partial_table
    (Stream.mk 0 none 100 0 true 0 [] [FrameResult.failure])
    (makeSeekTable (Stream.mk 0 none 100 0 true 0 [] [FrameResult.failure])).2
    GoErr.frameErr rfl⟩

/-! ### C4: the down-sampling bound -/

/-- Ceiling-division step: extending the range by one index adds one to
the count exactly when the new index is a multiple of the stride. -/
theorem ceil_div_succ (n m : Nat) (hm : 0 < m) :
    (n + m) / m = (n + m - 1) / m + (if n % m = 0 then 1 else 0) := by
  rcases Nat.eq_zero_or_pos (n % m) with h | h
  · obtain ⟨q, rfl⟩ := Nat.dvd_of_mod_eq_zero h
    rw [if_pos h]
    have e1 : m * q + m = m * (q + 1) := by ring
    have e2 : m * q + m - 1 = m * q + (m - 1) := by
      obtain ⟨t, ht⟩ : ∃ t, m * q = t := ⟨_, rfl⟩
      rw [ht]
      omega
    rw [e2, e1, Nat.mul_div_cancel_left _ hm, Nat.mul_add_div hm,
      Nat.div_eq_of_lt (by omega : m - 1 < m)]
  · rw [if_neg (by omega : ¬ n % m = 0)]
    have hqr := Nat.div_add_mod n m
    have hrm : n % m < m := Nat.mod_lt _ hm
    obtain ⟨t, ht⟩ : ∃ t, m * (n / m) = t := ⟨_, rfl⟩
    rw [ht] at hqr
    have hmul : m * (n / m + 1) = t + m := by rw [← ht]; ring
    have e1 : n + m = m * (n / m + 1) + n % m := by rw [hmul]; omega
    have e2 : n + m - 1 = m * (n / m + 1) + (n % m - 1) := by rw [hmul]; omega
    rw [e2, e1, Nat.mul_add_div hm, Nat.mul_add_div hm,
      Nat.div_eq_of_lt hrm, Nat.div_eq_of_lt (by omega : n % m - 1 < m)]

/-- Number of multiples of the stride below `n`, as a ceiling
division. -/
theorem countP_range_mod (m : Nat) (hm : 0 < m) :
    ∀ n : Nat, (List.range n).countP (fun i => decide (i % m = 0)) = (n + m - 1) / m := by
  intro n
  induction n with
  | zero => simp [Nat.div_eq_of_lt (by omega : m - 1 < m)]
  | succ k ih =>
    rw [List.range_succ, List.countP_append, ih]
    have e : k + 1 + m - 1 = k + m := by omega
    rw [e, ceil_div_succ k m hm]
    simp only [List.countP_cons, List.countP_nil, Nat.zero_add, decide_eq_true_eq]

/-- Length of the index-filtered enumeration, reduced to the count of
multiples among the indices. -/
theorem filter_enum_length (l : List SeekPoint) (m : Nat) :
    ((l.enum.filter (fun ip => decide (ip.1 % m = 0))).map Prod.snd).length =
      (List.range l.length).countP (fun i => decide (i % m = 0)) := by
  rw [List.length_map, ← List.countP_eq_length_filter]
  rw [show (fun ip : Nat × SeekPoint => decide (ip.1 % m = 0)) =
    ((fun i => decide (i % m = 0)) ∘ Prod.fst) from rfl]
  rw [← List.countP_map, List.enum_eq_enumFrom, List.enumFrom_map_fst,
    ← List.range_eq_range']

/-- Membership via the head of a list. -/
theorem mem_of_headSome {l : List SeekPoint} {a : SeekPoint}
    (h : l.head? = some a) : a ∈ l := by
  cases l with
  | nil => simp at h
  | cons x xs =>
    simp only [List.head?_cons, Option.some.injEq] at h
    rw [← h]
    exact List.mem_cons_self x xs

/-- Down-sampled length bound: with a positive configured size, the
down-sampled table never exceeds `2 * size - 1` points. -/
theorem downsample_length_le (tmp : List SeekPoint) (size : Nat) (hs : 1 ≤ size) :
    (downsample tmp size).length ≤ 2 * size - 1 := by
  have hm0 : 0 < stride tmp size := by
    unfold stride
    split
    · rename_i hlt
      exact (Nat.one_le_div_iff (by omega)).mpr (by omega)
    · omega
  unfold downsample
  rw [filter_enum_length tmp (stride tmp size),
    countP_range_mod (stride tmp size) hm0 tmp.length]
  by_cases hc : size < tmp.length
  · have hmdef : stride tmp size = tmp.length / size := if_pos hc
    rw [hmdef]
    obtain ⟨m, hm⟩ : ∃ m, tmp.length / size = m := ⟨_, rfl⟩
    rw [hm]
    have hm1 : 1 ≤ m := by
      rw [← hm]
      exact (Nat.one_le_div_iff (by omega)).mpr (by omega)
    have hdm := Nat.div_add_mod tmp.length size
    rw [hm] at hdm
    obtain ⟨r, hr⟩ : ∃ r, tmp.length % size = r := ⟨_, rfl⟩
    rw [hr] at hdm
    have hmod : r < size := by rw [← hr]; exact Nat.mod_lt _ (by omega)
    obtain ⟨a, ha⟩ : ∃ a, size = a + 1 := ⟨size - 1, by omega⟩
    obtain ⟨b, hb⟩ : ∃ b, m = b + 1 := ⟨m - 1, by omega⟩
    have key : tmp.length + m - 1 < 2 * size * m := by
      subst ha
      subst hb
      obtain ⟨A, hA⟩ : ∃ A, (a + 1) * (b + 1) = A := ⟨_, rfl⟩
      obtain ⟨C, hC⟩ : ∃ C, A = C + a + b + 1 := ⟨a * b, by rw [← hA]; ring⟩
      have h2 : 2 * (a + 1) * (b + 1) = 2 * A := by rw [← hA]; ring
      rw [hA] at hdm
      rw [h2]
      omega
    have hlt := (Nat.div_lt_iff_lt_mul (by omega : 0 < m)).mpr key
    omega
  · have hmdef : stride tmp size = 1 := if_neg hc
    rw [hmdef]
    simp only [Nat.add_sub_cancel, Nat.div_one]
    omega

/-- C4 (counterexample): 5 raw frames with a configured size of 3 give
stride 5 / 3 = 1, so all 5 points are kept and the synthesized table has
5 entries, exceeding the claimed bound of targetSize + 1 = 4. -/
theorem makeSeekTable_bound_counterexample :
    (makeSeekTable (Stream.mk 0 none 3 0 true 0 []
        [FrameResult.frame 4096 100, FrameResult.frame 4096 100, FrameResult.frame 4096 100,
         FrameResult.frame 4096 100, FrameResult.frame 4096 100])).2.seekTable.map
      (fun t => t.points.length) = some 5 ∧
    ¬ (5 : Nat) ≤ 3 + 1 := by
  constructor <;> decide

/-- C4 (amended): for every clean build with a positive configured
target size, the synthesized seek table contains at most
`2 * targetSize - 1` entries (the claimed bound `targetSize + 1` fails,
e.g. for 5 raw points and size 3), and whenever the stream has at least
one frame the table contains the point for sample 0 (raw index 0 is a
multiple of every stride). -/
theorem makeSeekTable_size_bound (s : Stream) (hseek : s.srcIsSeeker = true)
    (hplan : s.failPlan = []) (hok : allOk s.frames = true)
    (hs : 1 ≤ s.seekTableSize) :
    ∃ t, (makeSeekTable s).2.seekTable = some t ∧
      t.points.length ≤ 2 * s.seekTableSize - 1 ∧
      (s.frames ≠ [] → ∃ p ∈ t.points, p.sampleNum = 0) := by
  obtain ⟨pos2, tmpN, hscan, hlen, hhd, hmk⟩ := makeSeekTable_success s hseek hplan hok
  refine ⟨SeekTable.mk (downsample tmpN s.seekTableSize), by rw [hmk],
    downsample_length_le tmpN _ hs, ?_⟩
  intro hne
  cases hfr : s.frames with
  | nil => exact absurd hfr hne
  | cons fr rest =>
    cases fr with
    | failure => rw [hfr] at hok; simp [allOk] at hok
    | frame bs len =>
      have hh := hhd bs len rest hfr
      cases htmp : tmpN with
      | nil => rw [htmp] at hh; simp at hh
      | cons p0 tl =>
        rw [htmp] at hh
        simp only [List.head?_cons, Option.some.injEq] at hh
        refine ⟨p0, ?_, by rw [hh]⟩
        exact mem_of_headSome (downsample_head p0 tl s.seekTableSize)

/-- C4 (witness): the amended statement at the specification's own
scenario, 3 frames with a configured size of 2: the table keeps all 3
points, matching the bound 2 * 2 - 1 = 3, and contains sample 0. -/
theorem makeSeekTable_size_bound_witness :
    ∃ t, (makeSeekTable (Stream.mk 12288 none 2 0 true 0 []
        [FrameResult.frame 4096 100, FrameResult.frame 4096 100,
         FrameResult.frame 4096 100])).2.seekTable = some t ∧
      t.points.length ≤ 2 * (Stream.mk 12288 none 2 0 true 0 []
        [FrameResult.frame 4096 100, FrameResult.frame 4096 100,
         FrameResult.frame 4096 100]).seekTableSize - 1 ∧
      ((Stream.mk 12288 none 2 0 true 0 []
        [FrameResult.frame 4096 100, FrameResult.frame 4096 100,
         FrameResult.frame 4096 100]).frames ≠ [] →
        ∃ p ∈ t.points, p.sampleNum = 0) :=
  makeSeekTable_size_bound
    (Stream.mk 12288 none 2 0 true 0 []
      [FrameResult.frame 4096 100, FrameResult.frame 4096 100, FrameResult.frame 4096 100])
    rfl rfl rfl (by decide)

/-! ### C5: bytes consumed before the real signature -/

/-- Buffered-path behaviour (`New` / `Parse` sessions): for every
stream prefixed with a tag container — the signature bytes, one version
byte, two discarded header bytes and the four size bytes decoding to
`S`, followed by at least `S + 4` further bytes — the verifier consumes
exactly `10 + S` bytes before the 4 bytes it evaluates as the real
signature: the evaluated bytes are positions `10 + S` to `13 + S` of
the stream. -/
theorem readSignature_consumes (b3 v0 v1 s0 s1 s2 s3 : Nat) (rest : List Nat)
    (h : id3v2Size s0 s1 s2 s3 + 4 ≤ rest.length) :
    readSignature (73 :: 68 :: 51 :: b3 :: v0 :: v1 :: s0 :: s1 :: s2 :: s3 :: rest) =
      some (((73 :: 68 :: 51 :: b3 :: v0 :: v1 :: s0 :: s1 :: s2 :: s3 :: rest).drop
               (10 + id3v2Size s0 s1 s2 s3)).take 4,
            ((73 :: 68 :: 51 :: b3 :: v0 :: v1 :: s0 :: s1 :: s2 :: s3 :: rest).drop
               (10 + id3v2Size s0 s1 s2 s3)).drop 4) := by
  have e1 : readN 4 (73 :: 68 :: 51 :: b3 :: v0 :: v1 :: s0 :: s1 :: s2 :: s3 :: rest) =
      some ([73, 68, 51, b3], v0 :: v1 :: s0 :: s1 :: s2 :: s3 :: rest) := by
    unfold readN
    rw [if_pos (by simp only [List.length_cons]; omega)]
    rfl
  have r2 : readN 2 (v0 :: v1 :: s0 :: s1 :: s2 :: s3 :: rest) =
      some ([v0, v1], s0 :: s1 :: s2 :: s3 :: rest) := by
    unfold readN
    rw [if_pos (by simp only [List.length_cons]; omega)]
    rfl
  have r4 : readN 4 (s0 :: s1 :: s2 :: s3 :: rest) = some ([s0, s1, s2, s3], rest) := by
    unfold readN
    rw [if_pos (by simp only [List.length_cons]; omega)]
    rfl
  have rS : readN (id3v2Size s0 s1 s2 s3) rest =
      some (rest.take (id3v2Size s0 s1 s2 s3), rest.drop (id3v2Size s0 s1 s2 s3)) := by
    unfold readN
    rw [if_pos (by omega)]
  have e2 : skipID3v2 (v0 :: v1 :: s0 :: s1 :: s2 :: s3 :: rest) =
      some (rest.drop (id3v2Size s0 s1 s2 s3)) := by
    simp only [skipID3v2, r2, List.getD_cons_zero, List.getD_cons_succ, r4, rS]
  have r4b : readN 4 (rest.drop (id3v2Size s0 s1 s2 s3)) =
      some ((rest.drop (id3v2Size s0 s1 s2 s3)).take 4,
            (rest.drop (id3v2Size s0 s1 s2 s3)).drop 4) := by
    unfold readN
    rw [if_pos (by simp only [List.length_drop]; omega)]
  have hdrop : (73 :: 68 :: 51 :: b3 :: v0 :: v1 :: s0 :: s1 :: s2 :: s3 :: rest).drop
      (10 + id3v2Size s0 s1 s2 s3) = rest.drop (id3v2Size s0 s1 s2 s3) := by
    rw [← List.drop_drop]
    rfl
  rw [hdrop]
  simp only [readSignature, e1]
  rw [if_pos (show ([73, 68, 51, b3].take 3 : List Nat) = id3Signature from rfl)]
  simp only [e2, r4b]

/-- Instance of the buffered-path statement at a concrete tagged stream
with declared size 1: the evaluated signature bytes are the four bytes
after the 10-byte header plus 1 skipped byte. -/
theorem readSignature_consumes_witness :
    id3v2Size 0 0 0 1 + 4 ≤ ([9, 102, 76, 97, 67] : List Nat).length ∧
    readSignature [73, 68, 51, 4, 0, 0, 0, 0, 0, 1, 9, 102, 76, 97, 67] =
      some ((([73, 68, 51, 4, 0, 0, 0, 0, 0, 1, 9, 102, 76, 97, 67] : List Nat).drop
               (10 + id3v2Size 0 0 0 1)).take 4,
            (([73, 68, 51, 4, 0, 0, 0, 0, 0, 1, 9, 102, 76, 97, 67] : List Nat).drop
               (10 + id3v2Size 0 0 0 1)).drop 4) :=
  ⟨by decide, readSignature_consumes 4 0 0 0 0 0 1 [9, 102, 76, 97, 67] (by decide)⟩

/-- C5: on a `NewSeek` session the claim fails.  The 15-byte tagged
stream below declares size 0, so the claim requires exactly 10 bytes
consumed and bytes 10 to 13 (the FLAC signature) evaluated — which is
what the buffered `New` / `Parse` path does (second conjunct).  On the
raw-source path, however, the temporary buffered reader of `skipID3v2`
fills with all 11 bytes that follow the initial read, consumes only 6
of them, and its remaining 5 bytes — including the real signature — are
lost when the function returns; the re-read then finds the source
exhausted and the verifier fails (first conjunct) instead of evaluating
bytes 10 to 13. -/
theorem readSignatureRaw_loses_bytes :
    readSignatureRaw [73, 68, 51, 4, 0, 0, 0, 0, 0, 0, 102, 76, 97, 67, 9] = none ∧
    readSignature [73, 68, 51, 4, 0, 0, 0, 0, 0, 0, 102, 76, 97, 67, 9] =
      some ([102, 76, 97, 67], [9]) := by
  constructor <;> decide

end Flac
